import Mathlib

/-!
Verification development for the raspi-voice7 Realtime Session & Signaling
Engine.  The Python sources under `src/` are shallowly embedded as Lean
definitions: pure helpers become Lean functions, stateful objects become
explicit state records with step functions, time is an explicit rational
parameter, and exceptions become `Except` / explicit outcome flags.

Sources embedded (file → Lean section):
  - src/capabilities/executor.py, src/capabilities/base.py → `Caps`
  - src/core/openai_realtime_client.py, src/main.py main loop  → `Client`
  - src/core/audio.py (resample_audio)                        → `Audio`
  - src/core/webrtc.py (VideoCallManager, parse_ice_candidate)→ `Webrtc`
  - src/core/firebase_signaling.py (FirebaseSignaling)        → `Signaling`
-/

/- ## Generic helpers for embedding Python string primitives -/

/-- Python `str.split()` with no argument: split on runs of spaces and
discard empty pieces.  Auxiliary accumulator version over char lists. -/
def splitWSAux : List Char → List Char → List (List Char)
  | [], acc => if acc = [] then [] else [acc.reverse]
  | c :: rest, acc =>
    if c = ' ' then
      (if acc = [] then splitWSAux rest [] else acc.reverse :: splitWSAux rest [])
    else splitWSAux rest (c :: acc)

/-- Python `str.split()` (whitespace split, empties discarded). -/
def splitWS (cs : List Char) : List (List Char) := splitWSAux cs []

/-- Value of a decimal digit character, if it is one. -/
def digitVal (c : Char) : Option Nat :=
  if '0' ≤ c ∧ c ≤ '9' then some (c.toNat - '0'.toNat) else none

/-- Read a non-empty all-digit character list as a natural number. -/
def natOfDigits : List Char → Option Nat
  | [] => none
  | cs => cs.foldl (fun acc c => match acc, digitVal c with
      | some n, some d => some (n * 10 + d)
      | _, _ => none) (some 0)

/-- Python `int(s)` on a decimal literal with optional sign; `ValueError`
(any non-literal input) is `none`.  (Python also strips surrounding
whitespace and allows `_` separators; those never occur in the ICE fields
this is applied to.) -/
def pyIntOfChars : List Char → Option Int
  | '-' :: rest => (natOfDigits rest).map (fun n => -(n : Int))
  | '+' :: rest => (natOfDigits rest).map (fun n => (n : Int))
  | cs => (natOfDigits cs).map (fun n => (n : Int))

/-- Truncation of a rational toward zero, as performed by numpy
`astype(np.int16)` on an in-range value (C-style cast). -/
def qtrunc (q : ℚ) : ℤ := if 0 ≤ q then ⌊q⌋ else -⌊-q⌋

/- ## Configuration constants (src/config.py) -/

namespace Config

/-- `Config.SESSION_RESET_TIMEOUT = 10` (seconds). -/
def SESSION_RESET_TIMEOUT : ℚ := 10

/-- `Config.VOICE_MESSAGE_TIMEOUT = 60` (seconds). -/
def VOICE_MESSAGE_TIMEOUT : ℚ := 60

/-- `Config.MAX_RECONNECT_ATTEMPTS = 5`. -/
def MAX_RECONNECT_ATTEMPTS : Nat := 5

/-- `Config.RECONNECT_DELAY_BASE = 2` (seconds, backoff base). -/
def RECONNECT_DELAY_BASE : ℚ := 2

/-- `Config.CHUNK_SIZE = 512`. -/
def CHUNK_SIZE : Nat := 512

/-- `Config.INPUT_SAMPLE_RATE = 48000`. -/
def INPUT_SAMPLE_RATE : Nat := 48000

end Config

/- ## Capabilities (src/capabilities/base.py, src/capabilities/executor.py) -/

namespace Caps

/-- The only capability-result `data` key the engine inspects
(`result.data.get("start_voice_recording")`,
src/core/openai_realtime_client.py:277). -/
structure CapData where
  start_voice_recording : Bool
deriving DecidableEq, Repr

/-- `CapabilityResult` (src/capabilities/base.py:22-37):
`{success: bool, message: str, data: Optional[Dict]}`. -/
structure CapabilityResult where
  success : Bool
  message : String
  data : Option CapData
deriving DecidableEq, Repr

/-- `CapabilityResult.ok` (base.py:30-32). -/
def CapabilityResult.mkOk (message : String) (data : Option CapData) : CapabilityResult :=
  { success := true, message := message, data := data }

/-- `CapabilityResult.fail` (base.py:34-37). -/
def CapabilityResult.fail (message : String) : CapabilityResult :=
  { success := false, message := message, data := none }

/-- A raised Python exception, carrying its `str(e)` text. -/
structure PyError where
  text : String
deriving DecidableEq, Repr

/-- Tool arguments, a JSON object decoded by `json.loads` (modelled as
key/value pairs; their structure is irrelevant to every claim). -/
def CapArgs := List (String × String)
deriving instance DecidableEq, Repr for CapArgs

/-- A registered capability handler: `cap.execute(**arguments)` either
returns a `CapabilityResult` or raises. -/
def CapHandler := CapArgs → Except PyError CapabilityResult

/-- The executor's registry `self._capabilities : Dict[str, Capability]`
(executor.py:26). -/
def Registry := String → Option CapHandler

/-- `CapabilityExecutor.execute` (executor.py:46-56):

```python
cap = self._capabilities.get(name)
if not cap:
    return CapabilityResult.fail("できませんでした")
try:
    return cap.execute(**arguments)
except Exception as e:
    return CapabilityResult.fail("今はできません")
```
-/
def CapabilityExecutor.execute (reg : Registry) (name : String)
    (arguments : CapArgs) : CapabilityResult :=
  match reg name with
  | none => CapabilityResult.fail "できませんでした"
  | some cap =>
    match cap arguments with
    | Except.ok r => r
    | Except.error _ => CapabilityResult.fail "今はできません"

end Caps

/- ## Session client (src/core/openai_realtime_client.py, src/main.py) -/

namespace Client

open Caps

/-- Mutable state of `OpenAIRealtimeClient` (openai_realtime_client.py:33-49).
`ws` is the presence of the websocket handle (`self.ws is not None`);
times are rationals (seconds since the epoch). -/
structure ClientState where
  ws : Bool
  is_connected : Bool
  is_responding : Bool
  needs_reconnect : Bool
  reconnect_count : Nat
  needs_session_reset : Bool
  last_response_time : Option ℚ
  voice_message_mode : Bool
  voice_message_timestamp : Option ℚ
deriving DecidableEq, Repr

/-- Messages the client writes to the websocket.  Only the shapes the
claims mention are distinguished. -/
inductive OutEvent
  | toolResponse (call_id : String) (output : String)
  | responseCreate
deriving DecidableEq, Repr

/-- `connect` (openai_realtime_client.py:66-87).  The outcome of
`websockets.connect` is the explicit `ok` parameter; on failure the
exception propagates to the caller (`raise`) with the state unchanged. -/
def connect (s : ClientState) (ok : Bool) : ClientState × Bool :=
  if ok then ({ s with ws := true, is_connected := true }, true)
  else (s, false)

/-- `disconnect` (openai_realtime_client.py:89-97): only acts when a
websocket handle is present. -/
def disconnect (s : ClientState) : ClientState :=
  if s.ws then { s with ws := false, is_connected := false } else s

/-- `send_tool_response` (openai_realtime_client.py:170-186): no-op unless
connected with a live websocket; `ws.send` exceptions are caught and
change no state. -/
def sendToolResponse (s : ClientState) (call_id : String) (result : String) :
    List OutEvent :=
  if s.is_connected ∧ s.ws then
    [OutEvent.toolResponse call_id result, OutEvent.responseCreate]
  else []

/-- The `response.function_call_arguments.done` branch of `_handle_event`
(openai_realtime_client.py:255-282): execute the named capability (inline
or via `run_in_executor`; both invoke `CapabilityExecutor.execute`), set
voice-message mode when the result's data asks for it, and send the
result message back as the tool output. -/
def handleFunctionCallDone (s : ClientState) (reg : Registry)
    (name : String) (arguments : CapArgs) (call_id : String) (now : ℚ) :
    ClientState × List OutEvent :=
  let result := CapabilityExecutor.execute reg name arguments
  let s1 :=
    match result.data with
    | some d =>
      if d.start_voice_recording then
        { s with voice_message_mode := true, voice_message_timestamp := some now }
      else s
    | none => s
  (s1, sendToolResponse s1 call_id result.message)

/-- The `response.done` branch of `_handle_event`
(openai_realtime_client.py:285-290). -/
def handleResponseDone (s : ClientState) (now : ℚ) : ClientState :=
  { s with is_responding := false, last_response_time := some now }

/-- One successfully received and handled message of `receive_messages`
(openai_realtime_client.py:193-196): after `_handle_event` returns,
`self.reconnect_count = 0`. `handled` is the state already updated by the
event handler. -/
def receiveHandled (handled : ClientState) : ClientState :=
  { handled with reconnect_count := 0 }

/-- `check_voice_message_timeout` (openai_realtime_client.py:347-355).
Returns the (possibly cleared) state and the value returned to the
caller. -/
def checkVoiceMessageTimeout (s : ClientState) (now : ℚ) : ClientState × Bool :=
  if s.voice_message_mode then
    match s.voice_message_timestamp with
    | some ts =>
      if now - ts > Config.VOICE_MESSAGE_TIMEOUT then
        ({ s with voice_message_mode := false, voice_message_timestamp := none }, false)
      else (s, s.voice_message_mode)
    | none => (s, s.voice_message_mode)
  else (s, s.voice_message_mode)

/-- `reset_session` (openai_realtime_client.py:309-322):
disconnect, clear voice-message fields only when the mode is already off,
then reconnect (connect outcome supplied as `connectOk`). -/
def resetSession (s : ClientState) (connectOk : Bool) : ClientState × Bool :=
  let s1 := disconnect s
  let s2 :=
    if ¬s1.voice_message_mode then
      { s1 with voice_message_mode := false, voice_message_timestamp := none }
    else s1
  match connect s2 connectOk with
  | (s3, true) => (s3, true)
  | (s3, false) => ({ s3 with needs_reconnect := true }, false)

/-- What one call of `reconnect` did: the backoff wait it performed (if
any) and whether it went on to reopen the transport. -/
structure ReconnectTrace where
  waited : Option ℚ
  attempted_connect : Bool
  ok : Bool
deriving DecidableEq, Repr

/-- `reconnect` (openai_realtime_client.py:324-345):

```python
self.reconnect_count += 1
if self.reconnect_count > Config.MAX_RECONNECT_ATTEMPTS:
    return False
delay = min(Config.RECONNECT_DELAY_BASE ** self.reconnect_count, 60)
await asyncio.sleep(delay)
await self.disconnect()
self.needs_reconnect = False
if not self.voice_message_mode: ...
try: await self.connect(); return True
except Exception: self.needs_reconnect = True; return False
```
-/
def reconnect (s : ClientState) (connectOk : Bool) :
    ClientState × ReconnectTrace :=
  let s1 := { s with reconnect_count := s.reconnect_count + 1 }
  if s1.reconnect_count > Config.MAX_RECONNECT_ATTEMPTS then
    (s1, { waited := none, attempted_connect := false, ok := false })
  else
    let delay := min (Config.RECONNECT_DELAY_BASE ^ s1.reconnect_count) 60
    let s2 := disconnect s1
    let s3 := { s2 with needs_reconnect := false }
    let s4 :=
      if ¬s3.voice_message_mode then
        { s3 with voice_message_mode := false, voice_message_timestamp := none }
      else s3
    match connect s4 connectOk with
    | (s5, true) => (s5, { waited := some delay, attempted_connect := true, ok := true })
    | (s5, false) =>
      ({ s5 with needs_reconnect := true },
       { waited := some delay, attempted_connect := true, ok := false })

/-- The idle-driven session-reset check at the top of the `main_async`
loop (src/main.py:853-860):

```python
if client.last_response_time and client.is_connected:
    if not client.check_voice_message_timeout():
        elapsed = time.time() - client.last_response_time
        if elapsed >= Config.SESSION_RESET_TIMEOUT:
            client.needs_session_reset = True
            client.last_response_time = None
```
(`time.time()` is never falsy, so truthiness of `last_response_time` is
its presence.) -/
def idleCheckTick (s : ClientState) (now : ℚ) : ClientState :=
  if s.last_response_time.isSome ∧ s.is_connected then
    let p := checkVoiceMessageTimeout s now
    if ¬p.2 then
      match p.1.last_response_time with
      | some t =>
        if now - t ≥ Config.SESSION_RESET_TIMEOUT then
          { p.1 with needs_session_reset := true, last_response_time := none }
        else p.1
      | none => p.1
    else p.1
  else s

/-- Names of the methods defined on class `OpenAIRealtimeClient`
(src/core/openai_realtime_client.py:23-360), in source order. -/
def openaiClientMethods : List String :=
  ["__init__", "_get_session_config", "connect", "disconnect",
   "_send_event", "send_activity_start", "send_activity_end",
   "send_audio_chunk", "send_text_message", "send_tool_response",
   "receive_messages", "_handle_event", "reset_session", "reconnect",
   "check_voice_message_timeout", "reset_voice_message_mode"]

/-- Python attribute lookup of a method on the client: an undefined name
raises `AttributeError`. -/
def invokeClientMethod (name : String) : Except PyError Unit :=
  if name ∈ openaiClientMethods then Except.ok ()
  else Except.error { text := "AttributeError: " ++ name }

/-- The button-released branch of `audio_input_loop` (src/main.py:780-793):
after `stop_input_stream`, compute the recording duration and either clear
the buffer (short recording) or commit it.  Returns the client coroutines
invoked, in order.

```python
duration = chunk_count * Config.CHUNK_SIZE / Config.INPUT_SAMPLE_RATE
if duration < 0.5:
    await client.clear_input_buffer()
else:
    await client.send_activity_end()
```
-/
def buttonReleaseClientCalls (chunk_count : Nat) : List String :=
  let duration : ℚ :=
    (chunk_count : ℚ) * (Config.CHUNK_SIZE : ℚ) / (Config.INPUT_SAMPLE_RATE : ℚ)
  if duration < 1/2 then ["clear_input_buffer"] else ["send_activity_end"]

end Client

/- ## Audio resampling (src/core/audio.py:47-66) -/

namespace Audio

/-- `trimmed.reshape(-1, factor)`: split a list (whose length has been
trimmed to a multiple of `k`) into its `length / k` consecutive rows of
`k` entries. -/
def toBlocks (k : Nat) (l : List ℤ) : List (List ℤ) :=
  (List.range (l.length / k)).map (fun i => (l.drop (i * k)).take k)

/-- `.mean(axis=1)` followed by `astype(np.int16)`: the block mean,
truncated toward zero (`Int.tdiv`).  The float32 arithmetic of the source
is exact up to this truncation for every realistic factor (block sums fit
in 24 bits and halves/quotients round inside the unit interval around the
true mean). -/
def blockMeanInt16 (k : Nat) (b : List ℤ) : ℤ :=
  Int.tdiv b.sum (k : ℤ)

/-- `np.linspace(0, n-1, m)` entry `i`, over ℚ. -/
def linspaceAt (n m i : Nat) : ℚ :=
  if m ≤ 1 then 0 else (n - 1 : ℚ) * i / (m - 1 : ℚ)

/-- `np.interp(pos, arange(n), xs)`: linear interpolation at a fractional
index, clamped to the ends. -/
def interpAt (xs : List ℤ) (pos : ℚ) : ℚ :=
  let n := xs.length
  if n = 0 then 0
  else
    let j : ℤ := ⌊pos⌋
    if j < 0 then (xs.headI : ℚ)
    else if (n : ℤ) - 1 ≤ j then ((xs.getLastD 0 : ℤ) : ℚ)
    else
      let a := xs.getD j.toNat 0
      let b := xs.getD (j.toNat + 1) 0
      (a : ℚ) + ((b : ℚ) - (a : ℚ)) * (pos - (j : ℚ))

/-- The non-integer-factor branch of `resample_audio` (audio.py:60-64),
idealized over ℚ (the source uses float64 `np.interp`); no claim depends
on this branch. -/
def interpResample (samples : List ℤ) (from_rate to_rate : Nat) : List ℤ :=
  let n := samples.length
  let target := n * to_rate / from_rate
  (List.range target).map (fun i => qtrunc (interpAt samples (linspaceAt n target i)))

/-- `resample_audio` (audio.py:47-66), at the level of int16 samples (the
byte string is the little-endian int16 encoding of this list, a
bijection; the identity branch returns the buffer before any decoding).

```python
if from_rate == to_rate:
    return audio_data
ratio = from_rate / to_rate
if ratio == int(ratio) and ratio > 1:
    factor = int(ratio)
    trim_length = (len(audio_array) // factor) * factor
    trimmed = audio_array[:trim_length]
    resampled = trimmed.reshape(-1, factor).mean(axis=1)
else:
    ... np.interp ...
return resampled.astype(np.int16).tobytes()
```
The float test `ratio == int(ratio) and ratio > 1` holds exactly when
`to_rate` divides `from_rate` with quotient at least 2. -/
def resample_audio (samples : List ℤ) (from_rate to_rate : Nat) : List ℤ :=
  if from_rate = to_rate then samples
  else if from_rate % to_rate = 0 ∧ from_rate / to_rate > 1 then
    let factor := from_rate / to_rate
    let trim_length := (samples.length / factor) * factor
    let trimmed := samples.take trim_length
    (toBlocks factor trimmed).map (blockMeanInt16 factor)
  else interpResample samples from_rate to_rate

end Audio

/- ## WebRTC call manager (src/core/webrtc.py) -/

namespace Webrtc

/-- The result dict of `parse_ice_candidate` (webrtc.py:23-65); the
field `ty` is the dict key `"type"`. -/
structure ParsedCandidate where
  foundation : String
  component : Int
  protocol : String
  priority : Int
  ip : String
  port : Int
  ty : String
  relatedAddress : Option String
  relatedPort : Option Int
  tcpType : Option String
deriving DecidableEq, Repr

/-- The optional-parameter loop of `parse_ice_candidate` (webrtc.py:51-60):
`for i in range(8, len(parts)-1, 2)` walks key/value pairs; unknown keys
are skipped, a non-numeric `rport` raises `ValueError` (→ `none`). -/
def optParams : List (List Char) → ParsedCandidate → Option ParsedCandidate
  | key :: val :: rest, acc =>
    if key = "raddr".data then
      optParams rest { acc with relatedAddress := some (String.mk val) }
    else if key = "rport".data then
      match pyIntOfChars val with
      | some n => optParams rest { acc with relatedPort := some n }
      | none => none
    else if key = "tcptype".data then
      optParams rest { acc with tcpType := some (String.mk val) }
    else optParams rest acc
  | _, acc => some acc

/-- `parse_ice_candidate` (webrtc.py:23-65): strip an optional
`"candidate:"` head, whitespace-split, require at least 8 fields, read the
numeric fields (a `ValueError` anywhere yields `None`), then scan the
optional parameters. -/
def parse_ice_candidate (candidate_str : String) : Option ParsedCandidate :=
  if candidate_str = "" then none
  else
    let cs0 := candidate_str.data
    let cs := if cs0.take 10 = "candidate:".data then cs0.drop 10 else cs0
    let parts := splitWS cs
    if parts.length < 8 then none
    else
      match pyIntOfChars (parts.getD 1 []), pyIntOfChars (parts.getD 3 []),
            pyIntOfChars (parts.getD 5 []) with
      | some component, some priority, some port =>
        optParams (parts.drop 8)
          { foundation := String.mk (parts.getD 0 [])
            component := component
            protocol := String.mk ((parts.getD 2 []).map Char.toLower)
            priority := priority
            ip := String.mk (parts.getD 4 [])
            port := port
            ty := String.mk (parts.getD 7 [])
            relatedAddress := none, relatedPort := none, tcpType := none }
      | _, _, _ => none

/-- An SDP description `{type, sdp}`. -/
structure SessionDesc where
  ty : String
  sdp : String
deriving DecidableEq, Repr

/-- An ICE-candidate message as delivered by the signaling layer:
`{"candidate": str, "sdpMid": ..., "sdpMLineIndex": ...}`. -/
structure IceCandidateMsg where
  candidate : String
  sdpMid : Option String
  sdpMLineIndex : Option Int
deriving DecidableEq, Repr

/-- An `RTCIceCandidate` as handed to `pc.addIceCandidate`
(webrtc.py:603-617). -/
structure AppliedCandidate where
  parsed : ParsedCandidate
  sdpMid : Option String
  sdpMLineIndex : Option Int
deriving DecidableEq, Repr

/-- The slice of the aiortc `RTCPeerConnection` the claims observe:
whether a remote description has been set, and the ordered list of
candidates added via `addIceCandidate`. -/
structure PeerConnection where
  remoteDescription : Option SessionDesc
  applied : List AppliedCandidate
deriving DecidableEq, Repr

/-- `VideoCallManager` state (webrtc.py:296-314).  `video_track` /
`audio_track` model the presence of the track objects;
`pending_ice_candidates` is `self._pending_ice_candidates`. -/
structure VideoCallManager where
  pc : Option PeerConnection
  video_track : Bool
  audio_track : Bool
  is_in_call : Bool
  pending_ice_candidates : List IceCandidateMsg
deriving DecidableEq, Repr

/-- Build the `RTCIceCandidate` for a message whose string parses
(webrtc.py:598-616 and 634-654 build the identical object). -/
def toApplied (c : IceCandidateMsg) : Option AppliedCandidate :=
  (parse_ice_candidate c.candidate).map
    (fun p => { parsed := p, sdpMid := c.sdpMid, sdpMLineIndex := c.sdpMLineIndex })

/-- `add_ice_candidate` (webrtc.py:579-622): queue while the peer
connection or its remote description is absent; otherwise parse and apply
(parse failure returns `False` and applies nothing). -/
def add_ice_candidate (m : VideoCallManager) (c : IceCandidateMsg) :
    VideoCallManager × Bool :=
  match m.pc with
  | none => ({ m with pending_ice_candidates := m.pending_ice_candidates ++ [c] }, true)
  | some pc0 =>
    if pc0.remoteDescription = none then
      ({ m with pending_ice_candidates := m.pending_ice_candidates ++ [c] }, true)
    else
      match toApplied c with
      | none => (m, false)
      | some a => ({ m with pc := some { pc0 with applied := pc0.applied ++ [a] } }, true)

/-- `_process_pending_ice_candidates` (webrtc.py:624-662): early return on
an empty queue; otherwise apply each queued candidate in order (skipping
ones that fail to parse; a missing `self.pc` makes every per-candidate
`try` fail), then clear the queue. -/
def processPendingIceCandidates (m : VideoCallManager) : VideoCallManager :=
  if m.pending_ice_candidates = [] then m
  else
    match m.pc with
    | none => { m with pending_ice_candidates := [] }
    | some pc0 =>
      { m with
        pc := some { pc0 with
          applied := pc0.applied ++ m.pending_ice_candidates.filterMap toApplied }
        pending_ice_candidates := [] }

/-- `handle_offer` (webrtc.py:479-533): apply the remote offer, flush the
pending ICE queue, then create/return the local answer.  Answer creation,
ICE gathering and the SDP-candidate extraction are external aiortc
effects supplied as `localDesc`; they do not touch the candidate state. -/
def handle_offer (m : VideoCallManager) (offer : SessionDesc)
    (localDesc : SessionDesc) : VideoCallManager × Option SessionDesc :=
  match m.pc with
  | none => (m, none)
  | some pc0 =>
    let m1 := { m with pc := some { pc0 with remoteDescription := some offer } }
    let m2 := processPendingIceCandidates m1
    (m2, some localDesc)

/-- `handle_answer` (webrtc.py:563-577): set the remote description and
return `True`; the pending ICE queue is not touched. -/
def handle_answer (m : VideoCallManager) (answer : SessionDesc) :
    VideoCallManager × Bool :=
  match m.pc with
  | none => (m, false)
  | some pc0 =>
    ({ m with pc := some { pc0 with remoteDescription := some answer } }, true)

/-- The externally visible teardown operations `end_call` performs. -/
inductive TeardownAction
  | stopVideoTrack
  | stopAudioTrack
  | closePC
deriving DecidableEq, Repr

/-- `end_call` (webrtc.py:664-683): clear the call flag and the pending
queue, stop and drop both tracks, close and drop the peer connection.
Returns the actions performed (a track/pc already absent is skipped). -/
def end_call (m : VideoCallManager) : VideoCallManager × List TeardownAction :=
  let acts :=
    (if m.video_track then [TeardownAction.stopVideoTrack] else []) ++
    (if m.audio_track then [TeardownAction.stopAudioTrack] else []) ++
    (if m.pc.isSome then [TeardownAction.closePC] else [])
  ({ pc := none, video_track := false, audio_track := false,
     is_in_call := false, pending_ice_candidates := [] }, acts)

end Webrtc

/- ## Call signaling (src/core/firebase_signaling.py) -/

namespace Signaling

open Webrtc

/-- One record of the polled `/videocall` subtree, as `_poll_signals`
reads it (`session.get(...)` with its defaults).  The candidate dicts map
store-generated ids to candidate payloads; Firebase push ids are returned
in insertion order. -/
structure SigSession where
  status : String
  caller : String
  callee : String
  offer : Option SessionDesc
  answer : Option SessionDesc
  caller_candidates : List (String × IceCandidateMsg)
  callee_candidates : List (String × IceCandidateMsg)
deriving DecidableEq, Repr

/-- Local "seen" bookkeeping of `FirebaseSignaling`
(firebase_signaling.py:126-130 and 31-36).  Sets are membership lists;
the per-session candidate maps are association lists. -/
structure SigState where
  device_id : String
  current_session_id : Option String
  last_seen_sessions : List String
  last_caller_candidates : List (String × List String)
  last_callee_candidates : List (String × List String)
  last_answer : List String
  last_offer : List String
deriving DecidableEq, Repr

/-- Events fired through the registered callbacks (all callbacks are
assumed installed, as `main.py:455-462` does at startup). -/
inductive SigEvent
  | incomingCall (session_id : String) (record : SigSession)
  | answerReceived (session_id : String) (answer : SessionDesc)
  | offerReceived (session_id : String) (offer : SessionDesc)
  | iceCandidate (session_id : String) (candidate : IceCandidateMsg)
  | callEnded (session_id : String)
deriving DecidableEq, Repr

/-- `start_listening` (firebase_signaling.py:123-142): resets every piece
of "seen" bookkeeping before the poll loop starts. -/
def startListening (device_id : String) (current : Option String) : SigState :=
  { device_id := device_id, current_session_id := current,
    last_seen_sessions := [], last_caller_candidates := [],
    last_callee_candidates := [], last_answer := [], last_offer := [] }

/-- Association-list lookup with a default, `dict.get(k, default)`
(keys are unique, as in a Python dict). -/
def alistGetD : List (String × List String) → String → List String
  | [], _ => []
  | p :: rest, k => if p.1 = k then p.2 else alistGetD rest k

/-- Association-list store, `d[k] = v` (replace the entry if the key
exists, else append). -/
def alistPut : List (String × List String) → String → List String →
    List (String × List String)
  | [], k, v => [(k, v)]
  | p :: rest, k, v =>
    if p.1 = k then (k, v) :: rest else p :: alistPut rest k v

/-- The inner loop of `_check_ice_candidates` (firebase_signaling.py:220-224):
walk the other side's candidate dict, firing one event per id not in the
seen-set and adding it. -/
def scanCandidates (seen : List String) :
    List (String × IceCandidateMsg) → List String × List IceCandidateMsg
  | [] => (seen, [])
  | (cand_id, cand) :: rest =>
    if cand_id ∈ seen then scanCandidates seen rest
    else
      let r := scanCandidates (seen ++ [cand_id]) rest
      (r.1, cand :: r.2)

/-- `_check_ice_candidates` (firebase_signaling.py:204-229): pick the
opposite side's list and seen-set, scan, write the seen-set back. -/
def checkIceCandidates (st : SigState) (session_id : String) (s : SigSession) :
    SigState × List SigEvent :=
  if s.caller = st.device_id then
    let seen := alistGetD st.last_callee_candidates session_id
    let r := scanCandidates seen s.callee_candidates
    ({ st with last_callee_candidates := alistPut st.last_callee_candidates session_id r.1 },
     r.2.map (SigEvent.iceCandidate session_id))
  else
    let seen := alistGetD st.last_caller_candidates session_id
    let r := scanCandidates seen s.caller_candidates
    ({ st with last_caller_candidates := alistPut st.last_caller_candidates session_id r.1 },
     r.2.map (SigEvent.iceCandidate session_id))

/-- The incoming-call detection of `_poll_signals`
(firebase_signaling.py:171-177): if the local device is the callee, the
status is `"calling"` and the id is unseen, the id is marked seen and,
only when the offer field is already present, the incoming-call callback
fires with the whole record. -/
def incomingStep (st : SigState) (session_id : String) (s : SigSession) :
    SigState × List SigEvent :=
  if s.callee = st.device_id ∧ s.status = "calling" ∧
      session_id ∉ st.last_seen_sessions then
    ({ st with last_seen_sessions := st.last_seen_sessions ++ [session_id] },
     if s.offer.isSome then [SigEvent.incomingCall session_id s] else [])
  else (st, [])

/-- Answer detection (firebase_signaling.py:179-185). -/
def answerStep (st : SigState) (session_id : String) (s : SigSession) :
    SigState × List SigEvent :=
  match s.answer with
  | some a =>
    if s.caller = st.device_id ∧ session_id ∉ st.last_answer then
      ({ st with last_answer := st.last_answer ++ [session_id] },
       [SigEvent.answerReceived session_id a])
    else (st, [])
  | none => (st, [])

/-- Offer detection (firebase_signaling.py:187-193). -/
def offerStep (st : SigState) (session_id : String) (s : SigSession) :
    SigState × List SigEvent :=
  match s.offer with
  | some o =>
    if s.callee = st.device_id ∧ (s.status = "answering" ∨ s.status = "connected") ∧
        session_id ∉ st.last_offer then
      ({ st with last_offer := st.last_offer ++ [session_id] },
       [SigEvent.offerReceived session_id o])
    else (st, [])
  | none => (st, [])

/-- End-of-call detection (firebase_signaling.py:198-202). -/
def endedStep (st : SigState) (session_id : String) (s : SigSession) :
    SigState × List SigEvent :=
  if s.status = "ended" ∧ st.current_session_id = some session_id then
    ({ st with current_session_id := none }, [SigEvent.callEnded session_id])
  else (st, [])

/-- The body of the per-record loop of `_poll_signals`
(firebase_signaling.py:163-202), for one `(session_id, session)` item:
incoming-call detection, answer/offer detection, candidate scan, and
end-of-call detection, in source order. -/
def pollSession (st : SigState) (session_id : String) (s : SigSession) :
    SigState × List SigEvent :=
  let r1 := incomingStep st session_id s
  let r2 := answerStep r1.1 session_id s
  let r3 := offerStep r2.1 session_id s
  let r4 := checkIceCandidates r3.1 session_id s
  let r5 := endedStep r4.1 session_id s
  (r5.1, r1.2 ++ r2.2 ++ r3.2 ++ r4.2 ++ r5.2)

/-- One `_poll_signals` pass (firebase_signaling.py:151-202) over the
polled subtree (non-dict entries are skipped before this loop). -/
def pollSignals (st : SigState) (data : List (String × SigSession)) :
    SigState × List SigEvent :=
  match data with
  | [] => (st, [])
  | (sid, s) :: rest =>
    let r1 := pollSession st sid s
    let r2 := pollSignals r1.1 rest
    (r2.1, r1.2 ++ r2.2)

/-- A run of the poll loop: one `_poll_signals` pass per polled snapshot,
accumulating the fired events. -/
def pollRun (st : SigState) (datas : List (List (String × SigSession))) :
    SigState × List SigEvent :=
  match datas with
  | [] => (st, [])
  | d :: rest =>
    let r1 := pollSignals st d
    let r2 := pollRun r1.1 rest
    (r2.1, r1.2 ++ r2.2)

/-- Count of incoming-call events for a given session id. -/
def countIncoming (sid : String) (evs : List SigEvent) : Nat :=
  (evs.filter (fun e => match e with
    | SigEvent.incomingCall i _ => i = sid
    | _ => false)).length

/-- Count of ICE-candidate deliveries for a given session id and
candidate payload. -/
def countIceDeliveries (sid : String) (c : IceCandidateMsg)
    (evs : List SigEvent) : Nat :=
  (evs.filter (fun e => match e with
    | SigEvent.iceCandidate i cand => i = sid ∧ cand = c
    | _ => false)).length

/-- "The bookkeeping only grows": every seen session id, answer/offer
marker and per-session candidate id of `st` is still present in `st2`,
and the device id is unchanged. -/
def SigMono (st st2 : SigState) : Prop :=
  (∀ x, x ∈ st.last_seen_sessions → x ∈ st2.last_seen_sessions) ∧
  (∀ x, x ∈ st.last_answer → x ∈ st2.last_answer) ∧
  (∀ x, x ∈ st.last_offer → x ∈ st2.last_offer) ∧
  (∀ k x, x ∈ alistGetD st.last_caller_candidates k →
    x ∈ alistGetD st2.last_caller_candidates k) ∧
  (∀ k x, x ∈ alistGetD st.last_callee_candidates k →
    x ∈ alistGetD st2.last_callee_candidates k) ∧
  st2.device_id = st.device_id

end Signaling

/- ## Concrete fixtures used to evaluate the model on explicit inputs -/

namespace Fixtures

open Caps Client Webrtc Signaling

/-- A registry with one registered capability whose handler raises. -/
def demoReg : Registry := fun n =>
  if n = "boom_cap" then
    some (fun _ => Except.error { text := "ZeroDivisionError: division by zero" })
  else none

/-- A connected client at rest. -/
def demoClient : ClientState :=
  { ws := true, is_connected := true, is_responding := false,
    needs_reconnect := false, reconnect_count := 0,
    needs_session_reset := false, last_response_time := some 1000,
    voice_message_mode := false, voice_message_timestamp := none }

/-- A connected client inside voice-message mode (entered at t=1000). -/
def voiceClient : ClientState :=
  { demoClient with voice_message_mode := true,
                    voice_message_timestamp := some 1000 }

/-- A well-formed ICE candidate message. -/
def cand0 : IceCandidateMsg :=
  { candidate := "candidate:1 1 udp 2130706431 192.168.11.2 54321 typ host",
    sdpMid := some "0", sdpMLineIndex := some 0 }

/-- A call manager whose peer connection exists but has no remote
description yet (the caller side waiting for the answer). -/
def vcmNoRemote : VideoCallManager :=
  { pc := some { remoteDescription := none, applied := [] },
    video_track := true, audio_track := true, is_in_call := false,
    pending_ice_candidates := [] }

/-- A remote answer description. -/
def answerDesc : SessionDesc := { ty := "answer", sdp := "v=0 answer" }

/-- A remote offer description. -/
def offerDesc : SessionDesc := { ty := "offer", sdp := "v=0 offer" }

/-- The locally generated description returned by the offer path. -/
def localDesc : SessionDesc := { ty := "answer", sdp := "v=0 local" }

/-- Signaling bookkeeping accumulated during a previous day: one fully
handled incoming session. -/
def sigSeen : SigState :=
  { device_id := "raspi", current_session_id := some "phone_123",
    last_seen_sessions := ["phone_123"],
    last_caller_candidates := [("phone_123", ["c1"])],
    last_callee_candidates := [], last_answer := [],
    last_offer := ["phone_123"] }

/-- The same session as later polled, now ended. -/
def endedSession : SigSession :=
  { status := "ended", caller := "phone", callee := "raspi",
    offer := some offerDesc, answer := none,
    caller_candidates := [("c1", cand0)], callee_candidates := [] }

/-- A fresh incoming-call record carrying its offer. -/
def callingSession : SigSession :=
  { status := "calling", caller := "phone", callee := "raspi",
    offer := some offerDesc, answer := none,
    caller_candidates := [], callee_candidates := [] }

/-- A fresh signaling state for device "raspi". -/
def sigFresh : SigState := startListening "raspi" none

end Fixtures

/- ## Claim theorems -/

/-- C1: `CapabilityExecutor.execute` never raises and absorbs failures:
an unregistered name returns `success=false` with the fixed message
"できませんでした"; a handler that raises returns `success=false` with the
fixed message "今はできません" — the same result whatever error was raised,
so the message never contains the error's text.  The session client's
tool-call branch sends that message back as the tool result and leaves
the connection flags untouched (no crash, no disconnect). -/
theorem C1_capability_failure_boundary
    (reg : Caps.Registry) (name : String) (args : Caps.CapArgs)
    (s : Client.ClientState) (call_id : String) (now : ℚ) :
    (reg name = none →
      Caps.CapabilityExecutor.execute reg name args =
        Caps.CapabilityResult.fail "できませんでした") ∧
    (∀ cap e, reg name = some cap → cap args = Except.error e →
      Caps.CapabilityExecutor.execute reg name args =
        Caps.CapabilityResult.fail "今はできません") ∧
    (Client.handleFunctionCallDone s reg name args call_id now).1.is_connected
      = s.is_connected ∧
    (Client.handleFunctionCallDone s reg name args call_id now).1.ws = s.ws ∧
    (s.is_connected = true → s.ws = true →
      (Client.handleFunctionCallDone s reg name args call_id now).2 =
        [Client.OutEvent.toolResponse call_id
           (Caps.CapabilityExecutor.execute reg name args).message,
         Client.OutEvent.responseCreate]) := by
  have hspec : ∃ s1 : Client.ClientState,
      Client.handleFunctionCallDone s reg name args call_id now =
        (s1, Client.sendToolResponse s1 call_id
              (Caps.CapabilityExecutor.execute reg name args).message) ∧
      s1.is_connected = s.is_connected ∧ s1.ws = s.ws := by
    simp only [Client.handleFunctionCallDone]
    rcases (Caps.CapabilityExecutor.execute reg name args).data with _ | d
    · exact ⟨s, rfl, rfl, rfl⟩
    · by_cases hd : d.start_voice_recording
      · exact ⟨{ s with voice_message_mode := true,
                        voice_message_timestamp := some now },
          by simp [hd], rfl, rfl⟩
      · exact ⟨s, by simp [hd], rfl, rfl⟩
  obtain ⟨s1, heq, hic, hws⟩ := hspec
  refine ⟨?_, ?_, ?_, ?_, ?_⟩
  · intro h
    simp [Caps.CapabilityExecutor.execute, h]
  · intro cap e h1 h2
    simp [Caps.CapabilityExecutor.execute, h1, h2]
  · rw [heq]
    exact hic
  · rw [heq]
    exact hws
  · intro hc hw
    rw [heq]
    simp [Client.sendToolResponse, hic, hws, hc, hw]

/-- Witness for C1 at concrete inputs: a missing capability and a raising
handler, on a connected client. -/
theorem C1_capability_failure_boundary_witness :
    Caps.CapabilityExecutor.execute Fixtures.demoReg "missing_cap" [] =
      Caps.CapabilityResult.fail "できませんでした" ∧
    Caps.CapabilityExecutor.execute Fixtures.demoReg "boom_cap" [] =
      Caps.CapabilityResult.fail "今はできません" ∧
    (Client.handleFunctionCallDone Fixtures.demoClient Fixtures.demoReg
        "boom_cap" [] "call_1" 2000).2 =
      [Client.OutEvent.toolResponse "call_1"
         (Caps.CapabilityExecutor.execute Fixtures.demoReg "boom_cap" []).message,
       Client.OutEvent.responseCreate] := by
  refine ⟨?_, ?_, ?_⟩
  · exact (C1_capability_failure_boundary Fixtures.demoReg "missing_cap" []
      Fixtures.demoClient "call_1" 2000).1 rfl
  · exact (C1_capability_failure_boundary Fixtures.demoReg "boom_cap" []
      Fixtures.demoClient "call_1" 2000).2.1
      (fun _ => Except.error { text := "ZeroDivisionError: division by zero" })
      { text := "ZeroDivisionError: division by zero" } rfl rfl
  · exact (C1_capability_failure_boundary Fixtures.demoReg "boom_cap" []
      Fixtures.demoClient "call_1" 2000).2.2.2.2 rfl rfl

/-- C4: `reconnect` increments `reconnect_count` by exactly 1 first; when
the incremented count exceeds `MAX_RECONNECT_ATTEMPTS` (5) it returns
failure without waiting and without reopening the transport (so the 6th
attempt is never started); otherwise it waits exactly
`min(RECONNECT_DELAY_BASE^reconnect_count, 60)` seconds and then reopens;
and one successfully received and handled inbound event sets
`reconnect_count` back to 0. -/
theorem C4_reconnect_backoff (s : Client.ClientState) (ok : Bool) :
    (Client.reconnect s ok).1.reconnect_count = s.reconnect_count + 1 ∧
    (s.reconnect_count + 1 > Config.MAX_RECONNECT_ATTEMPTS →
      (Client.reconnect s ok).2 =
        { waited := none, attempted_connect := false, ok := false }) ∧
    (s.reconnect_count + 1 ≤ Config.MAX_RECONNECT_ATTEMPTS →
      (Client.reconnect s ok).2.waited =
        some (min (Config.RECONNECT_DELAY_BASE ^ (s.reconnect_count + 1)) 60) ∧
      (Client.reconnect s ok).2.attempted_connect = true) ∧
    (s.reconnect_count ≥ Config.MAX_RECONNECT_ATTEMPTS →
      (Client.reconnect s ok).2.attempted_connect = false) ∧
    (Client.receiveHandled s).reconnect_count = 0 := by
  by_cases hc : s.reconnect_count + 1 > Config.MAX_RECONNECT_ATTEMPTS
  · refine ⟨?_, fun _ => ?_, fun hle => absurd hle (by omega), fun _ => ?_, rfl⟩ <;>
      simp [Client.reconnect, hc, Client.receiveHandled]
  · have hle : ¬ s.reconnect_count ≥ Config.MAX_RECONNECT_ATTEMPTS := by
      simp only [Config.MAX_RECONNECT_ATTEMPTS] at hc ⊢
      omega
    refine ⟨?_, fun hgt => absurd hgt hc, fun _ => ⟨?_, ?_⟩, fun hge => absurd hge hle, rfl⟩ <;>
      by_cases hv : s.voice_message_mode <;> by_cases hw : s.ws <;> cases ok <;>
        simp [Client.reconnect, hc, Client.disconnect, Client.connect, hv, hw]

/-- Witness for C4: the 6th invocation (count already 5) starts no
connection attempt, and the 1st invocation waits exactly 2 seconds. -/
theorem C4_reconnect_backoff_witness :
    (Client.reconnect { Fixtures.demoClient with reconnect_count := 5 } true).2.attempted_connect
      = false ∧
    (Client.reconnect Fixtures.demoClient true).2.waited = some 2 := by
  constructor
  · exact (C4_reconnect_backoff { Fixtures.demoClient with reconnect_count := 5 }
      true).2.2.2.1 (by norm_num [Config.MAX_RECONNECT_ATTEMPTS])
  · have h := (C4_reconnect_backoff Fixtures.demoClient true).2.2.1
      (by norm_num [Config.MAX_RECONNECT_ATTEMPTS, Fixtures.demoClient])
    have h2 := h.1
    rw [h2]
    norm_num [Config.RECONNECT_DELAY_BASE, Fixtures.demoClient]

/-- C8: `end_call` is idempotent: a second invocation performs no
teardown operation (so it cannot raise) and returns the state of the
first invocation unchanged — `is_in_call` false, pending ICE queue empty,
both tracks and the peer connection cleared. -/
theorem C8_end_call_idempotent (m : Webrtc.VideoCallManager) :
    Webrtc.end_call (Webrtc.end_call m).1 = ((Webrtc.end_call m).1, []) ∧
    (Webrtc.end_call m).1.is_in_call = false ∧
    (Webrtc.end_call m).1.pending_ice_candidates = [] ∧
    (Webrtc.end_call m).1.video_track = false ∧
    (Webrtc.end_call m).1.audio_track = false ∧
    (Webrtc.end_call m).1.pc = none :=
  ⟨rfl, rfl, rfl, rfl, rfl, rfl⟩

/-- C9: `reset_session` and `reconnect` preserve the voice-message mode
flag for every state; while the mode is active the timestamp is preserved
as well, and when the mode is off (whose invariant is a cleared
timestamp) the fields stay cleared — the clearing branch only rewrites
already-cleared values. -/
theorem C9_voice_mode_frame (s : Client.ClientState) (ok : Bool) :
    (Client.resetSession s ok).1.voice_message_mode = s.voice_message_mode ∧
    (Client.reconnect s ok).1.voice_message_mode = s.voice_message_mode ∧
    (s.voice_message_mode = true →
      (Client.resetSession s ok).1.voice_message_timestamp = s.voice_message_timestamp ∧
      (Client.reconnect s ok).1.voice_message_timestamp = s.voice_message_timestamp) ∧
    (s.voice_message_timestamp = none →
      (Client.resetSession s ok).1.voice_message_timestamp = none ∧
      (Client.reconnect s ok).1.voice_message_timestamp = none) := by
  by_cases hc : s.reconnect_count + 1 > Config.MAX_RECONNECT_ATTEMPTS <;>
    by_cases hv : s.voice_message_mode <;> by_cases hw : s.ws <;> cases ok <;>
      simp [Client.resetSession, Client.reconnect, Client.disconnect,
            Client.connect, hc, hv, hw]

/-- Witness for C9: a client inside voice-message mode keeps the mode and
its timestamp across both a session reset and a reconnection. -/
theorem C9_voice_mode_frame_witness :
    (Client.resetSession Fixtures.voiceClient true).1.voice_message_mode = true ∧
    (Client.resetSession Fixtures.voiceClient true).1.voice_message_timestamp = some 1000 ∧
    (Client.reconnect Fixtures.voiceClient true).1.voice_message_timestamp = some 1000 := by
  have h := C9_voice_mode_frame Fixtures.voiceClient true
  have ht := h.2.2.1 rfl
  exact ⟨h.1, ht.1, ht.2⟩

/-- C10: in the audio input loop, a button release after a recording
shorter than 0.5 s never calls `send_activity_end`; instead the branch
invokes `clear_input_buffer` on the session client — a method the client
does not define, so the invocation raises `AttributeError` rather than
clearing the input buffer. -/
theorem C10_short_release_attribute_error (chunk_count : Nat)
    (h : (chunk_count : ℚ) * (Config.CHUNK_SIZE : ℚ) / (Config.INPUT_SAMPLE_RATE : ℚ)
          < 1/2) :
    Client.buttonReleaseClientCalls chunk_count = ["clear_input_buffer"] ∧
    "send_activity_end" ∉ Client.buttonReleaseClientCalls chunk_count ∧
    "clear_input_buffer" ∉ Client.openaiClientMethods ∧
    (∀ name, name ∈ Client.buttonReleaseClientCalls chunk_count →
      ∃ err, Client.invokeClientMethod name = Except.error err) := by
  have hb : Client.buttonReleaseClientCalls chunk_count = ["clear_input_buffer"] := by
    simp only [Client.buttonReleaseClientCalls]
    rw [if_pos h]
  refine ⟨hb, by simp [hb], by decide, ?_⟩
  intro name hn
  rw [hb] at hn
  simp only [List.mem_singleton] at hn
  subst hn
  exact ⟨{ text := "AttributeError: " ++ "clear_input_buffer" }, rfl⟩

/-- Witness for C10 at a 10-chunk recording (≈0.107 s < 0.5 s). -/
theorem C10_short_release_attribute_error_witness :
    ((10 : ℚ) * (Config.CHUNK_SIZE : ℚ) / (Config.INPUT_SAMPLE_RATE : ℚ) < 1/2) ∧
    Client.buttonReleaseClientCalls 10 = ["clear_input_buffer"] ∧
    "clear_input_buffer" ∉ Client.openaiClientMethods := by
  have h : (10 : ℚ) * (Config.CHUNK_SIZE : ℚ) / (Config.INPUT_SAMPLE_RATE : ℚ) < 1/2 := by
    norm_num [Config.CHUNK_SIZE, Config.INPUT_SAMPLE_RATE]
  have hthm := C10_short_release_attribute_error 10 h
  exact ⟨h, hthm.1, hthm.2.2.1⟩

/-- The voice-message timeout check only ever touches the two
voice-message fields. -/
theorem checkVMT_frame (s : Client.ClientState) (now : ℚ) :
    (Client.checkVoiceMessageTimeout s now).1.last_response_time
      = s.last_response_time ∧
    (Client.checkVoiceMessageTimeout s now).1.needs_session_reset
      = s.needs_session_reset ∧
    (Client.checkVoiceMessageTimeout s now).1.is_connected = s.is_connected := by
  unfold Client.checkVoiceMessageTimeout
  by_cases hv : s.voice_message_mode <;>
    rcases s.voice_message_timestamp with _ | ts <;>
      simp [hv] <;> split_ifs <;> simp

/-- While the mode flag is set and the entry timestamp is within
`VOICE_MESSAGE_TIMEOUT`, the check reports the mode active. -/
theorem checkVMT_active (s : Client.ClientState) (now : ℚ)
    (hm : s.voice_message_mode = true)
    (hts : ∀ ts, s.voice_message_timestamp = some ts →
      now - ts ≤ Config.VOICE_MESSAGE_TIMEOUT) :
    (Client.checkVoiceMessageTimeout s now).2 = true := by
  unfold Client.checkVoiceMessageTimeout
  rcases hvt : s.voice_message_timestamp with _ | ts
  · simp [hm]
  · have hle := hts ts hvt
    have hng : ¬ now - ts > Config.VOICE_MESSAGE_TIMEOUT := not_lt.mpr hle
    simp [hm, hng]

/-- C3: on a tick of the main loop, the idle check sets
`needs_session_reset` iff the client is connected, a response has
completed (`last_response_time` set), the voice-message-timeout check
reports the mode inactive, and the idle time is at least
`SESSION_RESET_TIMEOUT` (10 s); and while voice-message mode is active
(flag set and, if a timestamp exists, within `VOICE_MESSAGE_TIMEOUT` of
entry), the idle-driven reset never fires, regardless of how much idle
time has elapsed. -/
theorem C3_idle_reset_iff (s : Client.ClientState) (now : ℚ)
    (h0 : s.needs_session_reset = false) :
    ((Client.idleCheckTick s now).needs_session_reset = true ↔
      (s.is_connected = true ∧
       (∃ t, s.last_response_time = some t ∧
         now - t ≥ Config.SESSION_RESET_TIMEOUT) ∧
       (Client.checkVoiceMessageTimeout s now).2 = false)) ∧
    (s.voice_message_mode = true →
      (∀ ts, s.voice_message_timestamp = some ts →
        now - ts ≤ Config.VOICE_MESSAGE_TIMEOUT) →
      (Client.idleCheckTick s now).needs_session_reset = false) := by
  obtain ⟨hcvtL, hcvtN, _⟩ := checkVMT_frame s now
  constructor
  · rcases hlrt : s.last_response_time with _ | t
    · have hid : Client.idleCheckTick s now = s := by
        unfold Client.idleCheckTick
        rw [hlrt]
        simp
      rw [hid, h0]
      simp [hlrt]
    · by_cases hic : s.is_connected = true
      · cases hp2 : (Client.checkVoiceMessageTimeout s now).2
        · by_cases hge : now - t ≥ Config.SESSION_RESET_TIMEOUT
          · have hfire : (Client.idleCheckTick s now).needs_session_reset = true := by
              unfold Client.idleCheckTick
              rw [hlrt]
              simp only [Option.isSome_some, hic, true_and, if_true]
              simp [hp2, hcvtL, hlrt, hge]
            rw [hfire]
            simp [hic, hlrt, hge, hp2]
          · have hno : (Client.idleCheckTick s now).needs_session_reset = false := by
              unfold Client.idleCheckTick
              rw [hlrt]
              simp only [Option.isSome_some, hic, true_and, if_true]
              simp [hp2, hcvtL, hlrt, hge, hcvtN, h0]
            rw [hno]
            constructor
            · intro hcontra
              exact absurd hcontra (by simp)
            · rintro ⟨-, ⟨t2, ht2, hge2⟩, -⟩
              cases ht2
              exact (hge hge2).elim
        · have hno : (Client.idleCheckTick s now).needs_session_reset = false := by
            unfold Client.idleCheckTick
            rw [hlrt]
            simp only [Option.isSome_some, hic, true_and, if_true]
            simp [hp2, hcvtN, h0]
          rw [hno]
          simp [hp2]
      · have hid : Client.idleCheckTick s now = s := by
          unfold Client.idleCheckTick
          simp [hic]
        rw [hid, h0]
        simp [hic]
  · intro hm hts
    have hp2 := checkVMT_active s now hm hts
    unfold Client.idleCheckTick
    by_cases hcond : s.last_response_time.isSome ∧ s.is_connected
    · simp [hcond, hp2, hcvtN, h0]
    · simp [hcond, h0]

/-- Witness for C3: with a response 11 s old the reset fires on a normal
client, and does not fire on a client in fresh voice-message mode even
with 30 s of idle time. -/
theorem C3_idle_reset_iff_witness :
    (Client.idleCheckTick
        { Fixtures.demoClient with last_response_time := some 1000 }
        1011).needs_session_reset = true ∧
    (Client.idleCheckTick
        { Fixtures.voiceClient with last_response_time := some 1000 }
        1030).needs_session_reset = false := by
  constructor
  · exact (C3_idle_reset_iff
      { Fixtures.demoClient with last_response_time := some 1000 } 1011 rfl).1.mpr
      ⟨rfl, ⟨1000, rfl, by norm_num [Config.SESSION_RESET_TIMEOUT]⟩, rfl⟩
  · refine (C3_idle_reset_iff
      { Fixtures.voiceClient with last_response_time := some 1000 } 1030 rfl).2 rfl ?_
    intro ts hts
    simp only [Fixtures.voiceClient, Fixtures.demoClient, Option.some.injEq] at hts
    rw [← hts]
    norm_num [Config.VOICE_MESSAGE_TIMEOUT]

/-- C7 counterexample: at the two-sample input `[1, 2]` downsampled
48000→24000 the single output sample is `1`, which is not the block mean
`3/2` — the code truncates the mean to int16, so "output sample equals
the mean of its input block" is false as stated. -/
theorem C7_resample_counterexample :
    Audio.resample_audio [1, 2] 48000 24000 = [1] ∧
    ¬ (((Audio.resample_audio [1, 2] 48000 24000).getD 0 0 : ℚ)
        = ((1 : ℚ) + 2) / 2) := by
  have h : Audio.resample_audio [1, 2] 48000 24000 = [1] := by decide
  refine ⟨h, ?_⟩
  rw [h]
  norm_num [List.getD]


/-- C7 (amended): `resample_audio` is the identity when the rates are
equal; for an integer factor `k > 1` the output has exactly `⌊n / k⌋`
samples, and output sample `i` is the mean of input block `i` truncated
toward zero (int16 cast), the input being first trimmed to a multiple of
`k`. -/
theorem C7_resample_identity_and_downsample
    (data : List ℤ) (r : ℕ) (samples : List ℤ) (k dst : ℕ)
    (hk : 1 < k) (hdst : 0 < dst) :
    Audio.resample_audio data r r = data ∧
    (Audio.resample_audio samples (k * dst) dst).length = samples.length / k ∧
    (∀ i, i < samples.length / k →
      (Audio.resample_audio samples (k * dst) dst).getD i 0 =
        Int.tdiv ((samples.drop (i * k)).take k).sum k) := by
  have hk0 : 0 < k := by omega
  have hgt : dst < k * dst := by
    calc dst < 2 * dst := by omega
    _ ≤ k * dst := Nat.mul_le_mul_right dst hk
  have hne : k * dst ≠ dst := Nat.ne_of_gt hgt
  have hmod : (k * dst) % dst = 0 := Nat.mul_mod_left k dst
  have hdiv : (k * dst) / dst = k := Nat.mul_div_cancel k hdst
  have hcond : (k * dst) % dst = 0 ∧ (k * dst) / dst > 1 := ⟨hmod, by rw [hdiv]; exact hk⟩
  have key : Audio.resample_audio samples (k * dst) dst =
      (Audio.toBlocks k (samples.take (samples.length / k * k))).map
        (Audio.blockMeanInt16 k) := by
    unfold Audio.resample_audio
    rw [if_neg hne, if_pos hcond, hdiv]
  have hL : (samples.take (samples.length / k * k)).length
      = samples.length / k * k := by
    rw [List.length_take]
    exact min_eq_left (Nat.div_mul_le_self _ _)
  have hblocks : (Audio.toBlocks k (samples.take (samples.length / k * k))).length
      = samples.length / k := by
    simp only [Audio.toBlocks, List.length_map, List.length_range, hL]
    exact Nat.mul_div_cancel _ hk0
  refine ⟨by simp [Audio.resample_audio], ?_, ?_⟩
  · rw [key, List.length_map, hblocks]
  · intro i hi2
    have hik : i * k + k ≤ samples.length / k * k := by
      have h1 : i + 1 ≤ samples.length / k := hi2
      calc i * k + k = (i + 1) * k := by ring
      _ ≤ samples.length / k * k := Nat.mul_le_mul_right k h1
    have htd : ((samples.take (samples.length / k * k)).drop (i * k)).take k
        = (samples.drop (i * k)).take k := by
      rw [List.drop_take, List.take_take]
      congr 1
      exact min_eq_left (by omega)
    rw [key]
    have hlen : ((Audio.toBlocks k (samples.take (samples.length / k * k))).map
        (Audio.blockMeanInt16 k)).length = samples.length / k := by
      rw [List.length_map, hblocks]
    rw [List.getD_eq_getElem _ _ (by rw [hlen]; exact hi2)]
    simp only [Audio.toBlocks, List.getElem_map, List.getElem_range]
    rw [htd]
    rfl

/-- Witness for C7's amended theorem: identity at 16 kHz → 16 kHz, and
48 kHz → 24 kHz downsampling of `[1, 2, 3, 4]` gives two samples with
`(3+4)/2` truncated to `3`. -/
theorem C7_resample_identity_and_downsample_witness :
    Audio.resample_audio [5, 7] 16000 16000 = [5, 7] ∧
    (Audio.resample_audio [1, 2, 3, 4] (2 * 24000) 24000).length = 2 ∧
    (Audio.resample_audio [1, 2, 3, 4] (2 * 24000) 24000).getD 1 0 = 3 := by
  have h := C7_resample_identity_and_downsample [5, 7] 16000 [1, 2, 3, 4] 2 24000
    (by norm_num) (by norm_num)
  refine ⟨h.1, ?_, ?_⟩
  · rw [h.2.1]
    decide
  · rw [h.2.2 1 (by norm_num)]
    decide

/- ### Signaling poll-loop helper lemmas -/

/-- Membership in the seen-set is preserved by a candidate scan. -/
theorem scan_seen_mono (l : List (String × Webrtc.IceCandidateMsg)) :
    ∀ (seen : List String) (x : String), x ∈ seen →
      x ∈ (Signaling.scanCandidates seen l).1 := by
  induction l with
  | nil =>
    intro seen x hx
    simpa [Signaling.scanCandidates] using hx
  | cons q rest ih =>
    intro seen x hx
    obtain ⟨cid, cand⟩ := q
    by_cases hc : cid ∈ seen
    · simpa [Signaling.scanCandidates, hc] using ih seen x hx
    · have hx2 : x ∈ seen ++ [cid] := by simp [hx]
      simpa [Signaling.scanCandidates, hc] using ih (seen ++ [cid]) x hx2

/-- After a scan, every candidate id of the scanned list is in the
seen-set. -/
theorem scan_ids_mem (l : List (String × Webrtc.IceCandidateMsg)) :
    ∀ (seen : List String) (p : String × Webrtc.IceCandidateMsg), p ∈ l →
      p.1 ∈ (Signaling.scanCandidates seen l).1 := by
  induction l with
  | nil =>
    intro seen p hp
    cases hp
  | cons q rest ih =>
    intro seen p hp
    obtain ⟨cid, cand⟩ := q
    rcases List.mem_cons.mp hp with hqe | hmem
    · subst hqe
      by_cases hc : cid ∈ seen
      · simpa [Signaling.scanCandidates, hc] using scan_seen_mono rest seen cid hc
      · have hin : cid ∈ seen ++ [cid] := by simp
        simpa [Signaling.scanCandidates, hc] using
          scan_seen_mono rest (seen ++ [cid]) cid hin
    · by_cases hc : cid ∈ seen
      · simpa [Signaling.scanCandidates, hc] using ih seen p hmem
      · simpa [Signaling.scanCandidates, hc] using ih (seen ++ [cid]) p hmem

/-- A scan over a list whose ids are all already seen delivers nothing
and changes nothing. -/
theorem scan_all_seen (l : List (String × Webrtc.IceCandidateMsg)) :
    ∀ (seen : List String), (∀ p ∈ l, p.1 ∈ seen) →
      Signaling.scanCandidates seen l = (seen, []) := by
  induction l with
  | nil =>
    intro seen _
    rfl
  | cons q rest ih =>
    intro seen hall
    obtain ⟨cid, cand⟩ := q
    have hc : cid ∈ seen := hall (cid, cand) (by simp)
    have hrest : ∀ p ∈ rest, p.1 ∈ seen := fun p hp => hall p (by simp [hp])
    rw [show Signaling.scanCandidates seen ((cid, cand) :: rest)
        = Signaling.scanCandidates seen rest from by
      simp [Signaling.scanCandidates, hc]]
    exact ih seen hrest

/-- Re-scanning the same candidate list immediately delivers nothing. -/
theorem scan_rescan (seen : List String) (l : List (String × Webrtc.IceCandidateMsg)) :
    Signaling.scanCandidates (Signaling.scanCandidates seen l).1 l
      = ((Signaling.scanCandidates seen l).1, []) :=
  scan_all_seen l _ (fun p hp => scan_ids_mem l seen p hp)

/-- Looking up the key just stored returns the stored value. -/
theorem alistGetD_put (l : List (String × List String)) (k : String)
    (v : List String) :
    Signaling.alistGetD (Signaling.alistPut l k v) k = v := by
  induction l with
  | nil => simp [Signaling.alistPut, Signaling.alistGetD]
  | cons p rest ih =>
    by_cases hp : p.1 = k
    · simp [Signaling.alistPut, Signaling.alistGetD, hp]
    · simp [Signaling.alistPut, Signaling.alistGetD, hp, ih]

/-- Storing under one key leaves other keys' lookups unchanged. -/
theorem alistGetD_put_ne (l : List (String × List String)) (k k2 : String)
    (v : List String) (h : k2 ≠ k) :
    Signaling.alistGetD (Signaling.alistPut l k v) k2
      = Signaling.alistGetD l k2 := by
  induction l with
  | nil => simp [Signaling.alistPut, Signaling.alistGetD, Ne.symm h]
  | cons p rest ih =>
    by_cases hp : p.1 = k
    · have hne : ¬ (k = k2) := fun he => h he.symm
      simp [Signaling.alistPut, Signaling.alistGetD, hp, hne]
    · simp [Signaling.alistPut, Signaling.alistGetD, hp, ih]

/-- `countIncoming` distributes over concatenation. -/
theorem countIncoming_append (i : String) (a b : List Signaling.SigEvent) :
    Signaling.countIncoming i (a ++ b)
      = Signaling.countIncoming i a + Signaling.countIncoming i b := by
  simp [Signaling.countIncoming, List.filter_append]

/-- ICE-candidate events never count as incoming-call events. -/
theorem countIncoming_map_ice (i sid : String) (l : List Webrtc.IceCandidateMsg) :
    Signaling.countIncoming i (l.map (Signaling.SigEvent.iceCandidate sid)) = 0 := by
  induction l with
  | nil => rfl
  | cons c rest ih => simpa [Signaling.countIncoming, List.filter] using ih

/-- Count of a single incoming-call event. -/
theorem countIncoming_single (i sid : String) (rec : Signaling.SigSession) :
    Signaling.countIncoming i [Signaling.SigEvent.incomingCall sid rec]
      = if sid = i then 1 else 0 := by
  by_cases h : sid = i <;> simp [Signaling.countIncoming, List.filter, h]

/-- The incoming-call count of `incomingStep`: one event exactly when the
record matches, is unseen, and already carries an offer. -/
theorem incomingStep_count (st : Signaling.SigState) (sid : String)
    (s : Signaling.SigSession) (i : String) :
    Signaling.countIncoming i (Signaling.incomingStep st sid s).2 =
      (if i = sid ∧ s.callee = st.device_id ∧ s.status = "calling" ∧
          sid ∉ st.last_seen_sessions ∧ s.offer.isSome = true then 1 else 0) := by
  unfold Signaling.incomingStep
  by_cases hc : s.callee = st.device_id ∧ s.status = "calling" ∧
      sid ∉ st.last_seen_sessions
  · by_cases ho : s.offer.isSome = true
    · by_cases hi : i = sid
      · simp [hc, ho, hi, countIncoming_single]
      · have hsi : ¬ sid = i := fun he => hi he.symm
        simp [hc, ho, hi, hsi, countIncoming_single]
    · simp [hc, ho, Signaling.countIncoming]
  · have hcon : ¬ (i = sid ∧ s.callee = st.device_id ∧ s.status = "calling" ∧
        sid ∉ st.last_seen_sessions ∧ s.offer.isSome = true) := by
      intro hx
      exact hc ⟨hx.2.1, hx.2.2.1, hx.2.2.2.1⟩
    simp [hc, hcon, Signaling.countIncoming]

/-- Seen-set shape after `incomingStep`, and frame for the other
fields. -/
theorem incomingStep_state (st : Signaling.SigState) (sid : String)
    (s : Signaling.SigSession) :
    (Signaling.incomingStep st sid s).1.last_seen_sessions =
      (if s.callee = st.device_id ∧ s.status = "calling" ∧
          sid ∉ st.last_seen_sessions
       then st.last_seen_sessions ++ [sid] else st.last_seen_sessions) ∧
    (Signaling.incomingStep st sid s).1.device_id = st.device_id ∧
    (Signaling.incomingStep st sid s).1.last_answer = st.last_answer ∧
    (Signaling.incomingStep st sid s).1.last_offer = st.last_offer ∧
    (Signaling.incomingStep st sid s).1.last_caller_candidates
      = st.last_caller_candidates ∧
    (Signaling.incomingStep st sid s).1.last_callee_candidates
      = st.last_callee_candidates ∧
    (Signaling.incomingStep st sid s).1.current_session_id
      = st.current_session_id := by
  unfold Signaling.incomingStep
  by_cases hc : s.callee = st.device_id ∧ s.status = "calling" ∧
      sid ∉ st.last_seen_sessions <;> simp [hc]

/-- `answerStep` only ever appends to `last_answer`; no incoming-call
event. -/
theorem answerStep_state (st : Signaling.SigState) (sid : String)
    (s : Signaling.SigSession) (i : String) :
    (Signaling.answerStep st sid s).1.last_seen_sessions
      = st.last_seen_sessions ∧
    (Signaling.answerStep st sid s).1.device_id = st.device_id ∧
    (∀ x, x ∈ st.last_answer → x ∈ (Signaling.answerStep st sid s).1.last_answer) ∧
    (Signaling.answerStep st sid s).1.last_offer = st.last_offer ∧
    (Signaling.answerStep st sid s).1.last_caller_candidates
      = st.last_caller_candidates ∧
    (Signaling.answerStep st sid s).1.last_callee_candidates
      = st.last_callee_candidates ∧
    (Signaling.answerStep st sid s).1.current_session_id
      = st.current_session_id ∧
    Signaling.countIncoming i (Signaling.answerStep st sid s).2 = 0 := by
  unfold Signaling.answerStep
  rcases s.answer with _ | a
  · simp [Signaling.countIncoming]
  · by_cases hc : s.caller = st.device_id ∧ sid ∉ st.last_answer
    · simp only [hc, if_true]
      refine ⟨by simp, by simp, ?_, by simp, by simp, by simp, by simp, ?_⟩
      · intro x hx
        simp [hx]
      · simp [Signaling.countIncoming, List.filter]
    · simp [hc, Signaling.countIncoming]

/-- `offerStep` only ever appends to `last_offer`; no incoming-call
event. -/
theorem offerStep_state (st : Signaling.SigState) (sid : String)
    (s : Signaling.SigSession) (i : String) :
    (Signaling.offerStep st sid s).1.last_seen_sessions
      = st.last_seen_sessions ∧
    (Signaling.offerStep st sid s).1.device_id = st.device_id ∧
    (Signaling.offerStep st sid s).1.last_answer = st.last_answer ∧
    (∀ x, x ∈ st.last_offer → x ∈ (Signaling.offerStep st sid s).1.last_offer) ∧
    (Signaling.offerStep st sid s).1.last_caller_candidates
      = st.last_caller_candidates ∧
    (Signaling.offerStep st sid s).1.last_callee_candidates
      = st.last_callee_candidates ∧
    (Signaling.offerStep st sid s).1.current_session_id
      = st.current_session_id ∧
    Signaling.countIncoming i (Signaling.offerStep st sid s).2 = 0 := by
  unfold Signaling.offerStep
  rcases s.offer with _ | o
  · simp [Signaling.countIncoming]
  · by_cases hc : s.callee = st.device_id ∧
      (s.status = "answering" ∨ s.status = "connected") ∧ sid ∉ st.last_offer
    · simp only [hc, if_true]
      refine ⟨by simp, by simp, by simp, ?_, by simp, by simp, by simp, ?_⟩
      · intro x hx
        simp [hx]
      · simp [Signaling.countIncoming, List.filter]
    · simp [hc, Signaling.countIncoming]

/-- `endedStep` only clears `current_session_id`; no incoming-call
event. -/
theorem endedStep_state (st : Signaling.SigState) (sid : String)
    (s : Signaling.SigSession) (i : String) :
    (Signaling.endedStep st sid s).1.last_seen_sessions
      = st.last_seen_sessions ∧
    (Signaling.endedStep st sid s).1.device_id = st.device_id ∧
    (Signaling.endedStep st sid s).1.last_answer = st.last_answer ∧
    (Signaling.endedStep st sid s).1.last_offer = st.last_offer ∧
    (Signaling.endedStep st sid s).1.last_caller_candidates
      = st.last_caller_candidates ∧
    (Signaling.endedStep st sid s).1.last_callee_candidates
      = st.last_callee_candidates ∧
    Signaling.countIncoming i (Signaling.endedStep st sid s).2 = 0 := by
  unfold Signaling.endedStep
  by_cases hc : s.status = "ended" ∧ st.current_session_id = some sid <;>
    simp [hc, Signaling.countIncoming, List.filter]

/-- `checkIceCandidates` only grows the per-session candidate seen-sets;
no incoming-call event. -/
theorem checkIce_state (st : Signaling.SigState) (sid : String)
    (s : Signaling.SigSession) (i : String) :
    (Signaling.checkIceCandidates st sid s).1.last_seen_sessions
      = st.last_seen_sessions ∧
    (Signaling.checkIceCandidates st sid s).1.device_id = st.device_id ∧
    (Signaling.checkIceCandidates st sid s).1.last_answer = st.last_answer ∧
    (Signaling.checkIceCandidates st sid s).1.last_offer = st.last_offer ∧
    (∀ k x, x ∈ Signaling.alistGetD st.last_caller_candidates k →
      x ∈ Signaling.alistGetD
        (Signaling.checkIceCandidates st sid s).1.last_caller_candidates k) ∧
    (∀ k x, x ∈ Signaling.alistGetD st.last_callee_candidates k →
      x ∈ Signaling.alistGetD
        (Signaling.checkIceCandidates st sid s).1.last_callee_candidates k) ∧
    (Signaling.checkIceCandidates st sid s).1.current_session_id
      = st.current_session_id ∧
    Signaling.countIncoming i (Signaling.checkIceCandidates st sid s).2 = 0 := by
  have hgrow : ∀ (m : List (String × List String))
      (cands : List (String × Webrtc.IceCandidateMsg)) (k x : String),
      x ∈ Signaling.alistGetD m k →
      x ∈ Signaling.alistGetD
        (Signaling.alistPut m sid
          (Signaling.scanCandidates (Signaling.alistGetD m sid) cands).1) k := by
    intro m cands k x hx
    by_cases hk : k = sid
    · subst hk
      rw [alistGetD_put]
      exact scan_seen_mono _ _ _ hx
    · rw [alistGetD_put_ne _ _ _ _ hk]
      exact hx
  by_cases hc : s.caller = st.device_id
  · refine ⟨by simp [Signaling.checkIceCandidates, hc],
      by simp [Signaling.checkIceCandidates, hc],
      by simp [Signaling.checkIceCandidates, hc],
      by simp [Signaling.checkIceCandidates, hc], ?_, ?_,
      by simp [Signaling.checkIceCandidates, hc],
      by simp [Signaling.checkIceCandidates, hc, countIncoming_map_ice]⟩
    · intro k x hx
      simp only [Signaling.checkIceCandidates, hc, if_true]
      exact hx
    · intro k x hx
      simp only [Signaling.checkIceCandidates, hc, if_true]
      exact hgrow st.last_callee_candidates s.callee_candidates k x hx
  · refine ⟨by simp [Signaling.checkIceCandidates, hc],
      by simp [Signaling.checkIceCandidates, hc],
      by simp [Signaling.checkIceCandidates, hc],
      by simp [Signaling.checkIceCandidates, hc], ?_, ?_,
      by simp [Signaling.checkIceCandidates, hc],
      by simp [Signaling.checkIceCandidates, hc, countIncoming_map_ice]⟩
    · intro k x hx
      simp only [Signaling.checkIceCandidates, hc, if_false]
      exact hgrow st.last_caller_candidates s.caller_candidates k x hx
    · intro k x hx
      simp only [Signaling.checkIceCandidates, hc, if_false]
      exact hx

/-- `SigMono` is transitive. -/
theorem sigMono_trans {a b c : Signaling.SigState}
    (h1 : Signaling.SigMono a b) (h2 : Signaling.SigMono b c) :
    Signaling.SigMono a c := by
  obtain ⟨h11, h12, h13, h14, h15, h16⟩ := h1
  obtain ⟨h21, h22, h23, h24, h25, h26⟩ := h2
  refine ⟨fun x hx => h21 x (h11 x hx), fun x hx => h22 x (h12 x hx),
    fun x hx => h23 x (h13 x hx), fun k x hx => h24 k x (h14 k x hx),
    fun k x hx => h25 k x (h15 k x hx), ?_⟩
  rw [h26, h16]

/-- The incoming-call count of a whole per-record poll step equals that
of its incoming sub-step: no other sub-step fires incoming-call
events. -/
theorem pollSession_count (st : Signaling.SigState) (sid : String)
    (s : Signaling.SigSession) (i : String) :
    Signaling.countIncoming i (Signaling.pollSession st sid s).2 =
      (if i = sid ∧ s.callee = st.device_id ∧ s.status = "calling" ∧
          sid ∉ st.last_seen_sessions ∧ s.offer.isSome = true then 1 else 0) := by
  have hunf : (Signaling.pollSession st sid s).2
      = (Signaling.incomingStep st sid s).2 ++
        (Signaling.answerStep (Signaling.incomingStep st sid s).1 sid s).2 ++
        (Signaling.offerStep (Signaling.answerStep
            (Signaling.incomingStep st sid s).1 sid s).1 sid s).2 ++
        (Signaling.checkIceCandidates (Signaling.offerStep (Signaling.answerStep
            (Signaling.incomingStep st sid s).1 sid s).1 sid s).1 sid s).2 ++
        (Signaling.endedStep (Signaling.checkIceCandidates (Signaling.offerStep
            (Signaling.answerStep (Signaling.incomingStep st sid s).1 sid s).1
            sid s).1 sid s).1 sid s).2 := by
    simp only [Signaling.pollSession]
  rw [hunf]
  simp only [countIncoming_append]
  rw [incomingStep_count,
      (answerStep_state _ sid s i).2.2.2.2.2.2.2,
      (offerStep_state _ sid s i).2.2.2.2.2.2.2,
      (checkIce_state _ sid s i).2.2.2.2.2.2.2,
      (endedStep_state _ sid s i).2.2.2.2.2.2]
  omega

/-- The seen-set after a per-record poll step is that of its incoming
sub-step, and the whole step only grows the bookkeeping. -/
theorem pollSession_state (st : Signaling.SigState) (sid : String)
    (s : Signaling.SigSession) :
    (Signaling.pollSession st sid s).1.last_seen_sessions
      = (Signaling.incomingStep st sid s).1.last_seen_sessions ∧
    Signaling.SigMono st (Signaling.pollSession st sid s).1 := by
  obtain ⟨hi1, hi2, hi3, hi4, hi5, hi6, hi7⟩ := incomingStep_state st sid s
  obtain ⟨ha1, ha2, ha3, ha4, ha5, ha6, ha7, -⟩ :=
    answerStep_state (Signaling.incomingStep st sid s).1 sid s sid
  obtain ⟨hb1, hb2, hb3, hb4, hb5, hb6, hb7, -⟩ :=
    offerStep_state (Signaling.answerStep
      (Signaling.incomingStep st sid s).1 sid s).1 sid s sid
  obtain ⟨hc1, hc2, hc3, hc4, hc5, hc6, hc7, -⟩ :=
    checkIce_state (Signaling.offerStep (Signaling.answerStep
      (Signaling.incomingStep st sid s).1 sid s).1 sid s).1 sid s sid
  obtain ⟨hd1, hd2, hd3, hd4, hd5, hd6, -⟩ :=
    endedStep_state (Signaling.checkIceCandidates (Signaling.offerStep
      (Signaling.answerStep (Signaling.incomingStep st sid s).1 sid s).1
      sid s).1 sid s).1 sid s sid
  have hps : (Signaling.pollSession st sid s).1 =
      (Signaling.endedStep (Signaling.checkIceCandidates (Signaling.offerStep
        (Signaling.answerStep (Signaling.incomingStep st sid s).1 sid s).1
        sid s).1 sid s).1 sid s).1 := rfl
  rw [hps]
  constructor
  · rw [hd1, hc1, hb1, ha1]
  · refine ⟨?_, ?_, ?_, ?_, ?_, ?_⟩
    · intro x hx
      rw [hd1, hc1, hb1, ha1, hi1]
      by_cases hcond : s.callee = st.device_id ∧ s.status = "calling" ∧
          sid ∉ st.last_seen_sessions
      · simp [hcond, hx]
      · simp [hcond, hx]
    · intro x hx
      rw [hd3, hc3, hb3]
      refine ha3 x ?_
      rw [hi3]
      exact hx
    · intro x hx
      rw [hd4, hc4]
      refine hb4 x ?_
      rw [ha4, hi4]
      exact hx
    · intro k x hx
      rw [hd5]
      refine hc5 k x ?_
      rw [hb5, ha5, hi5]
      exact hx
    · intro k x hx
      rw [hd6]
      refine hc6 k x ?_
      rw [hb6, ha6, hi6]
      exact hx
    · rw [hd2, hc2, hb2, ha2, hi2]

/-- Invariant of one `_poll_signals` pass: at most one incoming-call
event per session id, bookkeeping only grows, a session already seen
never fires, and a session that fired is in the seen-set afterwards. -/
theorem pollSignals_invariant (data : List (String × Signaling.SigSession)) :
    ∀ (st : Signaling.SigState) (i : String),
      Signaling.countIncoming i (Signaling.pollSignals st data).2 ≤ 1 ∧
      Signaling.SigMono st (Signaling.pollSignals st data).1 ∧
      (i ∈ st.last_seen_sessions →
        Signaling.countIncoming i (Signaling.pollSignals st data).2 = 0) ∧
      (Signaling.countIncoming i (Signaling.pollSignals st data).2 = 1 →
        i ∈ (Signaling.pollSignals st data).1.last_seen_sessions) := by
  induction data with
  | nil =>
    intro st i
    refine ⟨by simp [Signaling.pollSignals, Signaling.countIncoming], ?_, ?_, ?_⟩
    · exact ⟨fun x hx => hx, fun x hx => hx, fun x hx => hx,
        fun k x hx => hx, fun k x hx => hx, rfl⟩
    · intro _
      simp [Signaling.pollSignals, Signaling.countIncoming]
    · intro h
      simp [Signaling.pollSignals, Signaling.countIncoming] at h
  | cons q rest ih =>
    intro st i
    obtain ⟨sid, s⟩ := q
    have hunf : Signaling.pollSignals st ((sid, s) :: rest)
        = ((Signaling.pollSignals (Signaling.pollSession st sid s).1 rest).1,
           (Signaling.pollSession st sid s).2 ++
           (Signaling.pollSignals (Signaling.pollSession st sid s).1 rest).2) := by
      simp only [Signaling.pollSignals]
    rw [hunf]
    have hhead := pollSession_count st sid s i
    obtain ⟨hseen_eq, hmono_head⟩ := pollSession_state st sid s
    obtain ⟨ihle, ihmono, ihzero, ihone⟩ := ih (Signaling.pollSession st sid s).1 i
    simp only [countIncoming_append]
    by_cases hcond : i = sid ∧ s.callee = st.device_id ∧ s.status = "calling" ∧
        sid ∉ st.last_seen_sessions ∧ s.offer.isSome = true
    · have hhead1 : Signaling.countIncoming i (Signaling.pollSession st sid s).2 = 1 := by
        rw [hhead]
        simp [hcond]
      have hiseen : i ∈ (Signaling.pollSession st sid s).1.last_seen_sessions := by
        rw [hseen_eq, (incomingStep_state st sid s).1]
        obtain ⟨hie, h2, h3, h4, -⟩ := hcond
        subst hie
        simp [h2, h3, h4]
      have hrest0 := ihzero hiseen
      refine ⟨by omega, sigMono_trans hmono_head ihmono, ?_, ?_⟩
      · intro hmem
        obtain ⟨hie, -, -, h4, -⟩ := hcond
        subst hie
        exact (h4 hmem).elim
      · intro _
        exact ihmono.1 i hiseen
    · have hhead0 : Signaling.countIncoming i (Signaling.pollSession st sid s).2 = 0 := by
        rw [hhead]
        simp [hcond]
      rw [hhead0]
      simp only [Nat.zero_add]
      refine ⟨ihle, sigMono_trans hmono_head ihmono, ?_, ihone⟩
      intro hmem
      exact ihzero (hmono_head.1 i hmem)

/-- Invariant of a whole poll run: at most one incoming-call event per
session id across all polls, and the bookkeeping only grows. -/
theorem pollRun_invariant (datas : List (List (String × Signaling.SigSession))) :
    ∀ (st : Signaling.SigState) (i : String),
      Signaling.countIncoming i (Signaling.pollRun st datas).2 ≤ 1 ∧
      Signaling.SigMono st (Signaling.pollRun st datas).1 ∧
      (i ∈ st.last_seen_sessions →
        Signaling.countIncoming i (Signaling.pollRun st datas).2 = 0) ∧
      (Signaling.countIncoming i (Signaling.pollRun st datas).2 = 1 →
        i ∈ (Signaling.pollRun st datas).1.last_seen_sessions) := by
  induction datas with
  | nil =>
    intro st i
    refine ⟨by simp [Signaling.pollRun, Signaling.countIncoming], ?_, ?_, ?_⟩
    · exact ⟨fun x hx => hx, fun x hx => hx, fun x hx => hx,
        fun k x hx => hx, fun k x hx => hx, rfl⟩
    · intro _
      simp [Signaling.pollRun, Signaling.countIncoming]
    · intro h
      simp [Signaling.pollRun, Signaling.countIncoming] at h
  | cons d rest ih =>
    intro st i
    have hunf : Signaling.pollRun st (d :: rest)
        = ((Signaling.pollRun (Signaling.pollSignals st d).1 rest).1,
           (Signaling.pollSignals st d).2 ++
           (Signaling.pollRun (Signaling.pollSignals st d).1 rest).2) := by
      simp only [Signaling.pollRun]
    rw [hunf]
    obtain ⟨hle, hmono, hzero, hone⟩ := pollSignals_invariant d st i
    obtain ⟨ihle, ihmono, ihzero, ihone⟩ := ih (Signaling.pollSignals st d).1 i
    simp only [countIncoming_append]
    by_cases hh : Signaling.countIncoming i (Signaling.pollSignals st d).2 = 1
    · have hiseen := hone hh
      have hrest0 := ihzero hiseen
      refine ⟨by omega, sigMono_trans hmono ihmono, ?_, ?_⟩
      · intro hmem
        have hz := hzero hmem
        omega
      · intro _
        exact ihmono.1 i hiseen
    · have hh0 : Signaling.countIncoming i (Signaling.pollSignals st d).2 = 0 := by
        omega
      rw [hh0]
      simp only [Nat.zero_add]
      refine ⟨ihle, sigMono_trans hmono ihmono, ?_, ihone⟩
      intro hmem
      exact ihzero (hmono.1 i hmem)

/-- Scanning the same session record again immediately after a scan
delivers no ICE-candidate event: every id is already in the seen-set. -/
theorem checkIce_rescan (st : Signaling.SigState) (sid : String)
    (s : Signaling.SigSession) :
    (Signaling.checkIceCandidates
      (Signaling.checkIceCandidates st sid s).1 sid s).2 = [] := by
  by_cases hc : s.caller = st.device_id
  · simp only [Signaling.checkIceCandidates, hc, if_true]
    rw [alistGetD_put, scan_rescan]
    simp
  · simp only [Signaling.checkIceCandidates, hc, if_false]
    rw [alistGetD_put, scan_rescan]
    simp

/-- C2 counterexample: a candidate delivered while the remote description
is absent is queued; applying the remote description via the ANSWER path
(`handle_answer`) does not flush the queue — the candidate stays pending
and nothing is applied to the peer connection, contradicting the claim's
"whether via the offer path or the answer path". -/
theorem C2_answer_path_counterexample :
    ((Webrtc.handle_answer (Webrtc.add_ice_candidate Fixtures.vcmNoRemote
        Fixtures.cand0).1 Fixtures.answerDesc).1).pending_ice_candidates
      = [Fixtures.cand0] ∧
    ((Webrtc.handle_answer (Webrtc.add_ice_candidate Fixtures.vcmNoRemote
        Fixtures.cand0).1 Fixtures.answerDesc).1).pc
      = some { remoteDescription := some Fixtures.answerDesc,
               applied := [] } := by
  constructor
  · decide
  · decide

/-- C2 (amended): candidates delivered while the peer connection or its
remote description is absent are appended to the pending queue in
arrival order; applying the remote description via the OFFER path flushes
the queue exactly once, in arrival order (unparsable entries skipped),
and clears it; the ANSWER path sets the remote description but does NOT
flush the queue; and the polling layer's per-session seen-id set never
delivers an already-delivered candidate id again, so a candidate
appearing twice in polled data is applied to the peer connection at most
once. -/
theorem C2_ice_queue_amended
    (m : Webrtc.VideoCallManager) (c : Webrtc.IceCandidateMsg)
    (offer localDesc ans : Webrtc.SessionDesc) (pc0 : Webrtc.PeerConnection)
    (st : Signaling.SigState) (sid : String) (s : Signaling.SigSession) :
    (m.pc = none →
      (Webrtc.add_ice_candidate m c).1.pending_ice_candidates
        = m.pending_ice_candidates ++ [c]) ∧
    (m.pc = some pc0 → pc0.remoteDescription = none →
      (Webrtc.add_ice_candidate m c).1.pending_ice_candidates
        = m.pending_ice_candidates ++ [c] ∧
      (Webrtc.add_ice_candidate m c).1.pc = some pc0) ∧
    (m.pc = some pc0 →
      (Webrtc.handle_offer m offer localDesc).1.pending_ice_candidates = [] ∧
      (Webrtc.handle_offer m offer localDesc).1.pc =
        some { remoteDescription := some offer,
               applied := pc0.applied ++
                 m.pending_ice_candidates.filterMap Webrtc.toApplied }) ∧
    ((Webrtc.handle_answer m ans).1.pending_ice_candidates
      = m.pending_ice_candidates) ∧
    (m.pc = some pc0 →
      (Webrtc.handle_answer m ans).1.pc
        = some { remoteDescription := some ans, applied := pc0.applied }) ∧
    (Signaling.checkIceCandidates
      (Signaling.checkIceCandidates st sid s).1 sid s).2 = [] := by
  refine ⟨?_, ?_, ?_, ?_, ?_, checkIce_rescan st sid s⟩
  · intro hpc
    simp [Webrtc.add_ice_candidate, hpc]
  · intro hpc hrd
    constructor
    · simp [Webrtc.add_ice_candidate, hpc, hrd]
    · simp [Webrtc.add_ice_candidate, hpc, hrd]
  · intro hpc
    unfold Webrtc.handle_offer
    by_cases hp : m.pending_ice_candidates = []
    · constructor
      · simp [hpc, Webrtc.processPendingIceCandidates, hp]
      · simp [hpc, Webrtc.processPendingIceCandidates, hp]
    · constructor
      · simp [hpc, Webrtc.processPendingIceCandidates, hp]
      · simp [hpc, Webrtc.processPendingIceCandidates, hp]
  · unfold Webrtc.handle_answer
    cases hpc : m.pc
    · simp
    · simp
  · intro hpc
    simp [Webrtc.handle_answer, hpc]

/-- Witness for C2's amended theorem at the concrete caller-side state:
queueing, offer-path flush, answer-path non-flush, and re-scan dedup. -/
theorem C2_ice_queue_amended_witness :
    (Webrtc.add_ice_candidate Fixtures.vcmNoRemote
      Fixtures.cand0).1.pending_ice_candidates = [Fixtures.cand0] ∧
    (Webrtc.handle_offer (Webrtc.add_ice_candidate Fixtures.vcmNoRemote
        Fixtures.cand0).1 Fixtures.offerDesc
        Fixtures.localDesc).1.pending_ice_candidates = [] ∧
    (Webrtc.handle_answer (Webrtc.add_ice_candidate Fixtures.vcmNoRemote
        Fixtures.cand0).1
        Fixtures.answerDesc).1.pending_ice_candidates = [Fixtures.cand0] ∧
    (Signaling.checkIceCandidates (Signaling.checkIceCandidates Fixtures.sigSeen
        "phone_123" Fixtures.endedSession).1 "phone_123"
        Fixtures.endedSession).2 = [] := by
  have h1 := C2_ice_queue_amended Fixtures.vcmNoRemote Fixtures.cand0
    Fixtures.offerDesc Fixtures.localDesc Fixtures.answerDesc
    { remoteDescription := none, applied := [] } Fixtures.sigSeen "phone_123"
    Fixtures.endedSession
  have hadd := h1.2.1 rfl rfl
  have h2 := C2_ice_queue_amended (Webrtc.add_ice_candidate Fixtures.vcmNoRemote
      Fixtures.cand0).1 Fixtures.cand0
    Fixtures.offerDesc Fixtures.localDesc Fixtures.answerDesc
    { remoteDescription := none, applied := [] } Fixtures.sigSeen "phone_123"
    Fixtures.endedSession
  have hpc2 : (Webrtc.add_ice_candidate Fixtures.vcmNoRemote Fixtures.cand0).1.pc
      = some { remoteDescription := none, applied := [] } := hadd.2
  refine ⟨by simpa using hadd.1, ?_, ?_, h1.2.2.2.2.2⟩
  · exact (h2.2.2.1 hpc2).1
  · rw [h2.2.2.2.1]
    simpa using hadd.1

/-- C5: during a poll step, the incoming-call event for a record fires
exactly when the local device is the callee, the status is "calling",
the session id is not in the seen-set, and the offer is present — and it
then fires with the whole record, which carries the offer; across any
sequence of polls the event fires at most once per session id (a session
first sighted without its offer is marked seen, so the total stays at
most one). -/
theorem C5_incoming_call_once
    (st : Signaling.SigState) (sid : String) (s : Signaling.SigSession)
    (st0 : Signaling.SigState) (i : String)
    (datas : List (List (String × Signaling.SigSession))) :
    (Signaling.countIncoming sid (Signaling.pollSession st sid s).2 = 1 ↔
      s.callee = st.device_id ∧ s.status = "calling" ∧
      sid ∉ st.last_seen_sessions ∧ s.offer.isSome = true) ∧
    (s.callee = st.device_id → s.status = "calling" →
      sid ∉ st.last_seen_sessions → s.offer.isSome = true →
      Signaling.SigEvent.incomingCall sid s ∈ (Signaling.pollSession st sid s).2) ∧
    Signaling.countIncoming i (Signaling.pollRun st0 datas).2 ≤ 1 := by
  refine ⟨?_, ?_, (pollRun_invariant datas st0 i).1⟩
  · rw [pollSession_count]
    by_cases hcond : s.callee = st.device_id ∧ s.status = "calling" ∧
        sid ∉ st.last_seen_sessions ∧ s.offer.isSome = true
    · simp [hcond]
    · simp [hcond]
  · intro h1 h2 h3 h4
    have hr1 : (Signaling.incomingStep st sid s).2
        = [Signaling.SigEvent.incomingCall sid s] := by
      unfold Signaling.incomingStep
      simp [h1, h2, h3, h4]
    have hev : Signaling.SigEvent.incomingCall sid s
        ∈ (Signaling.incomingStep st sid s).2 := by
      rw [hr1]
      simp
    have hunf2 : (Signaling.pollSession st sid s).2
        = (Signaling.incomingStep st sid s).2 ++
          (Signaling.answerStep (Signaling.incomingStep st sid s).1 sid s).2 ++
          (Signaling.offerStep (Signaling.answerStep
              (Signaling.incomingStep st sid s).1 sid s).1 sid s).2 ++
          (Signaling.checkIceCandidates (Signaling.offerStep (Signaling.answerStep
              (Signaling.incomingStep st sid s).1 sid s).1 sid s).1 sid s).2 ++
          (Signaling.endedStep (Signaling.checkIceCandidates (Signaling.offerStep
              (Signaling.answerStep (Signaling.incomingStep st sid s).1 sid s).1
              sid s).1 sid s).1 sid s).2 := by
      simp only [Signaling.pollSession]
    rw [hunf2]
    exact List.mem_append_left _ (List.mem_append_left _ (List.mem_append_left _
      (List.mem_append_left _ hev)))

/-- Witness for C5: a fresh incoming record fires exactly one event with
the record, and across two polls of the same snapshot the count stays at
most one. -/
theorem C5_incoming_call_once_witness :
    Signaling.countIncoming "phone_9"
      (Signaling.pollSession Fixtures.sigFresh "phone_9"
        Fixtures.callingSession).2 = 1 ∧
    Signaling.SigEvent.incomingCall "phone_9" Fixtures.callingSession
      ∈ (Signaling.pollSession Fixtures.sigFresh "phone_9"
          Fixtures.callingSession).2 ∧
    Signaling.countIncoming "phone_9"
      (Signaling.pollRun Fixtures.sigFresh
        [[("phone_9", Fixtures.callingSession)],
         [("phone_9", Fixtures.callingSession)]]).2 ≤ 1 := by
  have h := C5_incoming_call_once Fixtures.sigFresh "phone_9"
    Fixtures.callingSession Fixtures.sigFresh "phone_9"
    [[("phone_9", Fixtures.callingSession)],
     [("phone_9", Fixtures.callingSession)]]
  exact ⟨h.1.mpr ⟨rfl, rfl, by decide, rfl⟩, h.2.1 rfl rfl (by decide) rfl, h.2.2⟩

/-- C6 counterexample: a poll pass — including the first pass of a new
day, since no poll pass depends on the date — clears none of the seen
bookkeeping: polling a completed (ended) session leaves the
seen-session-id set, the candidate-id bookkeeping and the seen-offer
marker intact (only `current_session_id` is dropped), so no once-per-day
sweep exists. -/
theorem C6_no_daily_cleanup_counterexample :
    (Signaling.pollSignals Fixtures.sigSeen
        [("phone_123", Fixtures.endedSession)]).1.last_seen_sessions
      = ["phone_123"] ∧
    (Signaling.pollSignals Fixtures.sigSeen
        [("phone_123", Fixtures.endedSession)]).1.last_caller_candidates
      = [("phone_123", ["c1"])] ∧
    (Signaling.pollSignals Fixtures.sigSeen
        [("phone_123", Fixtures.endedSession)]).1.last_offer
      = ["phone_123"] := by
  refine ⟨by decide, by decide, by decide⟩

/-- C6 (amended): the poll loop never clears its seen bookkeeping — every
poll pass, and any run of passes, only grows the seen-session-id set, the
seen-answer and seen-offer markers, and the per-session candidate-id
sets; the bookkeeping becomes empty only when `start_listening` is
invoked again. -/
theorem C6_seen_bookkeeping_never_cleared
    (st : Signaling.SigState) (data : List (String × Signaling.SigSession))
    (datas : List (List (String × Signaling.SigSession)))
    (device : String) (cur : Option String) :
    Signaling.SigMono st (Signaling.pollSignals st data).1 ∧
    Signaling.SigMono st (Signaling.pollRun st datas).1 ∧
    (Signaling.startListening device cur).last_seen_sessions = [] :=
  ⟨(pollSignals_invariant data st "").2.1, (pollRun_invariant datas st "").2.1, rfl⟩

/-- Witness for C6's amended theorem: yesterday's session id and
candidate id survive the next poll pass. -/
theorem C6_seen_bookkeeping_never_cleared_witness :
    "phone_123" ∈ (Signaling.pollSignals Fixtures.sigSeen
        [("phone_123", Fixtures.endedSession)]).1.last_seen_sessions ∧
    "c1" ∈ Signaling.alistGetD (Signaling.pollSignals Fixtures.sigSeen
        [("phone_123", Fixtures.endedSession)]).1.last_caller_candidates
        "phone_123" := by
  have h := C6_seen_bookkeeping_never_cleared Fixtures.sigSeen
    [("phone_123", Fixtures.endedSession)] [] "raspi" none
  exact ⟨h.1.1 "phone_123" (by decide), h.1.2.2.2.1 "phone_123" "c1" (by decide)⟩
